import Mathlib

/-!
Shallow embedding of the or_urdf URDF loader (src/src/urdf_loader.cpp).

Strings are modelled as lists of characters (`Str`), scalars (C++ doubles)
as rationals, and the few external collaborators (the ROS package-path
lookup, the host environment's trimesh reader) as explicit function
parameters.  The process-wide `package_cache` static map inside
`resolveURI` is threaded through every function that can touch it as an
explicit association list.  Fatal error paths of the C++ code (thrown
`openrave_exception`s and null-shared-pointer dereferences) are modelled
with `Except`; soft warnings (`RAVELOG_WARN`) do not alter control flow
and are therefore invisible in the embedding, exactly as in the source.
-/

abbrev Str := List Char

/-- Memoization cache of `resolveURI`: package name to resolved path. -/
abbrev PkgCache := List (Str × Str)

/-- Association-list lookup used to model `std::map::find`. -/
def alistFind : List (Str × Str) → Str → Option Str
  | [], _ => none
  | (k, v) :: rest, s => if k = s then some v else alistFind rest s

/-- Model of `uri.find(marker) == 0`: the string begins with the marker. -/
def strStartsWith : Str → Str → Bool
  | _, [] => true
  | [], _ :: _ => false
  | c :: cs, d :: ds => d = c && strStartsWith cs ds

/-- Model of `std::string::find("/")`: index of the first slash, if any. -/
def strFindSlash : Str → Option Nat
  | [] => none
  | c :: cs =>
    if c = '/' then some 0
    else match strFindSlash cs with
         | some i => some (i + 1)
         | none => none

/-- Model of `boost::filesystem::path::operator/=`: append `b` to `a`,
inserting a separator only when one is needed. -/
def pathJoin (a b : Str) : Str :=
  match b with
  | [] => a
  | c :: _ => if c = '/' then a ++ b else a ++ '/' :: b

/-- The leading characters stripped from a local-file reference. -/
def fileMarker : Str := "file://".toList

/-- The leading characters stripped from a named-package reference. -/
def packageMarker : Str := "package://".toList

/-- Embedding of `resolveURI` (urdf_loader.cpp lines 70-121).  The C++
static `package_cache` is the explicit `cache` argument, returned
updated; the ROS collaborator `ros::package::getPath` is the function
argument `rp`.  Returns the resolved path (empty on soft failure)
together with the cache after the call. -/
def resolveURI (rp : Str → Str) (cache : PkgCache) (path : Str) : Str × PkgCache :=
  if strStartsWith path fileMarker then
    (path.drop fileMarker.length, cache)
  else if strStartsWith path packageMarker then
    let uri := path.drop packageMarker.length
    let packageEnd := strFindSlash uri
    let package := match packageEnd with
                   | some i => uri.take i
                   | none => uri
    let lookedUp := alistFind cache package
    let packagePath := match lookedUp with
                       | some p => p
                       | none => rp package
    let cache1 := match lookedUp with
                  | some _ => cache
                  | none => cache ++ [(package, packagePath)]
    if packagePath = [] then
      ([], cache1)
    else
      let rest := match packageEnd with
                  | some i => uri.drop i
                  | none => []
      (pathJoin packagePath rest, cache1)
  else
    ([], cache)

/-! ## Data model: URDF input side -/

structure Vec3 where
  x : ℚ
  y : ℚ
  z : ℚ
deriving DecidableEq

/-- OpenRAVE::Vector: four rational components (w defaults to 0 when the
three-argument constructor is used in the source). -/
structure RaveVector where
  x : ℚ
  y : ℚ
  z : ℚ
  w : ℚ
deriving DecidableEq

/-- urdf::Rotation, a quaternion. -/
structure Rotation where
  x : ℚ
  y : ℚ
  z : ℚ
  w : ℚ
deriving DecidableEq

structure Pose where
  position : Vec3
  rotation : Rotation
deriving DecidableEq

structure Color where
  r : ℚ
  g : ℚ
  b : ℚ
  a : ℚ
deriving DecidableEq

/-- OpenRAVE::Transform: quaternion part and translation part. -/
structure RaveTransform where
  rot : RaveVector
  trans : RaveVector
deriving DecidableEq

def URDFVectorToRaveVector (v : Vec3) : RaveVector :=
  ⟨v.x, v.y, v.z, 0⟩

def URDFRotationToRaveVector (r : Rotation) : RaveVector :=
  ⟨r.x, r.y, r.z, r.w⟩

def URDFColorToRaveVector (c : Color) : RaveVector :=
  ⟨c.r, c.g, c.b, c.a⟩

def URDFPoseToRaveTransform (p : Pose) : RaveTransform :=
  ⟨URDFRotationToRaveVector p.rotation, URDFVectorToRaveVector p.position⟩

/-- Hamilton quaternion product (urdf::Rotation::operator* on rotations). -/
def quatMul (a b : Rotation) : Rotation :=
  ⟨a.w * b.x + a.x * b.w + a.y * b.z - a.z * b.y,
   a.w * b.y + a.y * b.w + a.z * b.x - a.x * b.z,
   a.w * b.z + a.z * b.w + a.x * b.y - a.y * b.x,
   a.w * b.w - a.x * b.x - a.y * b.y - a.z * b.z⟩

/-- Conjugate of a unit quaternion (urdf::Rotation::GetInverse). -/
def quatInverse (q : Rotation) : Rotation :=
  ⟨-q.x, -q.y, -q.z, q.w⟩

/-- urdf::Rotation::operator* on a vector: rotate `v` by quaternion `q`. -/
def rotateVec (q : Rotation) (v : Vec3) : Vec3 :=
  let t : Rotation := ⟨v.x, v.y, v.z, 0⟩
  let r := quatMul q (quatMul t (quatInverse q))
  ⟨r.x, r.y, r.z⟩

/-- Scalar times OpenRAVE::Vector (all four components). -/
def vsmul (s : ℚ) (v : RaveVector) : RaveVector :=
  ⟨s * v.x, s * v.y, s * v.z, s * v.w⟩

/-- urdf::Geometry: subclass plus integer discriminant.  The constructor
`otherTag` stands for an object whose discriminant lies outside the
declared enum values {SPHERE, BOX, CYLINDER, MESH} — the domain over
which the `default:` branches of the source's switch statements are
written. -/
inductive GeomPrim where
  | sphere (radius : ℚ)
  | box (dimx dimy dimz : ℚ)
  | cylinder (radius length : ℚ)
  | mesh (filename : Str)
  | otherTag (tag : Nat)
deriving DecidableEq

structure Material where
  color : Color
deriving DecidableEq

structure CollisionBlock where
  origin : Pose
  geometry : GeomPrim
deriving DecidableEq

structure VisualBlock where
  origin : Pose
  geometry : GeomPrim
  material : Option Material
deriving DecidableEq

/-- urdf::Inertial.  The off-diagonal terms are carried by the data model
but never read by the loader (silent fidelity loss, by design). -/
structure Inertial where
  origin : Pose
  mass : ℚ
  ixx : ℚ
  iyy : ℚ
  izz : ℚ
  ixy : ℚ
  ixz : ℚ
  iyz : ℚ
deriving DecidableEq

structure JointLimits where
  lower : ℚ
  upper : ℚ
  velocity : ℚ
  effort : ℚ
deriving DecidableEq

/-- urdf::JointMimic — parsed but intentionally never translated. -/
structure JointMimic where
  joint_name : Str
  multiplier : ℚ
  offset : ℚ
deriving DecidableEq

/-- Integer values of the urdf::Joint type enum
{UNKNOWN, REVOLUTE, CONTINUOUS, PRISMATIC, FLOATING, PLANAR, FIXED}. -/
def urdfUNKNOWN : Nat := 0
def urdfREVOLUTE : Nat := 1
def urdfCONTINUOUS : Nat := 2
def urdfPRISMATIC : Nat := 3
def urdfFLOATING : Nat := 4
def urdfPLANAR : Nat := 5
def urdfFIXED : Nat := 6

structure JointNode where
  name : Str
  parent_link_name : Str
  child_link_name : Str
  type : Nat
  origin : Pose
  axis : Vec3
  limits : Option JointLimits
  mimic : Option JointMimic
deriving DecidableEq

structure LinkNode where
  name : Str
  parent_joint : Option JointNode
  inertial : Option Inertial
  collision : Option CollisionBlock
  visual : Option VisualBlock
deriving DecidableEq

/-! ## Data model: OpenRAVE output side -/

inductive GeomType where
  | Box
  | Sphere
  | Cylinder
  | TriMesh
deriving DecidableEq

structure TriMeshData where
  tris : List (Vec3 × Vec3 × Vec3)
deriving DecidableEq

/-- OpenRAVE::KinBody::GeometryInfo, restricted to the fields the loader
writes.  A field the loader may leave untouched is an `Option` defaulting
to `none` ("host default"). -/
structure GeometryInfo where
  t : RaveTransform
  type : Option GeomType := none
  vGeomData : Option RaveVector := none
  bVisible : Bool
  bModifiable : Bool
  filenamecollision : Option Str := none
  meshcollision : Option TriMeshData := none
  filenamerender : Option Str := none
  vRenderScale : Option RaveVector := none
  vDiffuseColor : Option RaveVector := none
  vAmbientColor : Option RaveVector := none
deriving DecidableEq

/-- OpenRAVE::KinBody::LinkInfo, restricted to the fields the loader
writes. -/
structure LinkInfo where
  name : Str
  t : Option RaveTransform := none
  mass : Option ℚ := none
  tMassFrame : Option RaveTransform := none
  vinertiamoments : Option RaveVector := none
  vgeometryinfos : List GeometryInfo := []
deriving DecidableEq

/-- External collaborators of the load operation: the ROS package-path
service and the host environment's trimesh reader. -/
structure LoadEnv where
  resolvePackage : Str → Str
  readTrimeshURI : Str → Option TriMeshData

/-- Fatal outcomes of the load: thrown openrave_exceptions and the
null-shared-pointer dereference of line 340. -/
inductive LoadError where
  | unsupportedJointType
  | unsupportedGeomTag
  | unsupportedTrimeshRole
  | nullPointerDeref
deriving DecidableEq

/-! ## Geometry and link translation (URDFLoader::load, lines 255-369) -/

/-- The collision-geometry block of the load loop (lines 286-332):
visibility and modifiability are set unconditionally, then an inline
switch on the primitive discriminant fills type-specific fields.  That
switch has NO `default:` case, so an out-of-enum discriminant leaves
every type-specific field untouched and control falls through. -/
def collisionGeomInfo (env : LoadEnv) (cache : PkgCache) (collision : CollisionBlock) :
    GeometryInfo × PkgCache :=
  let g0 : GeometryInfo :=
    { t := URDFPoseToRaveTransform collision.origin
      bVisible := false
      bModifiable := false }
  match collision.geometry with
  | GeomPrim.mesh fn =>
    let rc := resolveURI env.resolvePackage cache fn
    let g1 := { g0 with filenamecollision := some rc.1, type := some GeomType.TriMesh }
    match env.readTrimeshURI rc.1 with
    | some tm => ({ g1 with meshcollision := some tm }, rc.2)
    | none => (g1, rc.2)
  | GeomPrim.sphere r =>
    ({ g0 with vGeomData := some (vsmul r ⟨1, 1, 1, 0⟩), type := some GeomType.Sphere }, cache)
  | GeomPrim.box dx dy dz =>
    ({ g0 with vGeomData := some (vsmul (1/2) ⟨dx, dy, dz, 0⟩), type := some GeomType.Box }, cache)
  | GeomPrim.cylinder r l =>
    ({ g0 with vGeomData := some ⟨r, l, 0, 0⟩, type := some GeomType.Cylinder }, cache)
  | GeomPrim.otherTag _ => (g0, cache)

/-- The render-geometry block of the load loop (lines 338-364).  The
transform is taken from the COLLISION block's origin (`collisionOrigin`
is what `collision->origin` dereferenced to); a zero-radius sphere is
built, a mesh visual attaches the render filename and unit scale, any
other visual primitive only logs a warning, and a material colors the
entry either way. -/
def renderGeomInfo (env : LoadEnv) (cache : PkgCache) (collisionOrigin : Pose)
    (visual : VisualBlock) : GeometryInfo × PkgCache :=
  let g0 : GeometryInfo :=
    { t := URDFPoseToRaveTransform collisionOrigin
      type := some GeomType.Sphere
      vGeomData := some ⟨0, 0, 0, 0⟩
      bModifiable := false
      bVisible := true }
  let gc := match visual.geometry with
    | GeomPrim.mesh fn =>
      let rc := resolveURI env.resolvePackage cache fn
      ({ g0 with filenamerender := some rc.1, vRenderScale := some ⟨1, 1, 1, 0⟩ }, rc.2)
    | _ => (g0, cache)
  let g1 := match visual.material with
    | some m =>
      { gc.1 with vDiffuseColor := some (URDFColorToRaveVector m.color)
                  vAmbientColor := some (URDFColorToRaveVector m.color) }
    | none => gc.1
  (g1, gc.2)

/-- One iteration of the link loop of `URDFLoader::load` (lines 255-369).
When a visual block is present but no collision block is, the source
evaluates `collision->origin` on a null shared pointer (line 340); that
undefined behaviour is the `nullPointerDeref` error outcome. -/
def translateLink (env : LoadEnv) (cache : PkgCache) (link : LinkNode) :
    Except LoadError (LinkInfo × PkgCache) :=
  let li0 : LinkInfo := { name := link.name }
  let li1 := match link.parent_joint with
    | some pj => { li0 with t := some (URDFPoseToRaveTransform pj.origin) }
    | none => li0
  let li2 := match link.inertial with
    | some inert =>
      { li1 with mass := some inert.mass
                 tMassFrame := some (URDFPoseToRaveTransform inert.origin)
                 vinertiamoments := some ⟨inert.ixx, inert.iyy, inert.izz, 0⟩ }
    | none => li1
  let afterCol := match link.collision with
    | some col =>
      let gc := collisionGeomInfo env cache col
      ({ li2 with vgeometryinfos := li2.vgeometryinfos ++ [gc.1] }, gc.2)
    | none => (li2, cache)
  match link.visual with
  | some vis =>
    match link.collision with
    | some col =>
      let gc := renderGeomInfo env afterCol.2 col.origin vis
      Except.ok ({ afterCol.1 with vgeometryinfos := afterCol.1.vgeometryinfos ++ [gc.1] }, gc.2)
    | none => Except.error LoadError.nullPointerDeref
  | none => Except.ok afterCol

/-- The link loop over the whole link list, threading the package cache. -/
def translateLinks (env : LoadEnv) : PkgCache → List LinkNode → Except LoadError (List LinkInfo × PkgCache)
  | cache, [] => Except.ok ([], cache)
  | cache, link :: rest =>
    match translateLink env cache link with
    | Except.error e => Except.error e
    | Except.ok (li, c1) =>
      match translateLinks env c1 rest with
      | Except.error e => Except.error e
      | Except.ok (lis, c2) => Except.ok (li :: lis, c2)

/-! ## The unused XML geometry helper `makeGeomElement` (lines 161-223).

This function is present in the source file but is never reached from
`URDFLoader::load`; it is embedded because it is the only place where an
unrecognized collision geometry discriminant throws. -/

inductive GeomRole where
  | COLLISION
  | RENDER
deriving DecidableEq

inductive XmlChild where
  | num (name : Str) (value : ℚ)
  | nums (name : Str) (values : List ℚ)
  | txt (name : Str) (value : Str)
deriving DecidableEq

structure XmlGeom where
  typeAttr : Str
  renderAttr : Option Str := none
  children : List XmlChild := []
deriving DecidableEq

def makeGeomElement (env : LoadEnv) (cache : PkgCache) (geometry : GeomPrim)
    (role : GeomRole) : Except LoadError (XmlGeom × PkgCache) :=
  match geometry with
  | GeomPrim.sphere r =>
    Except.ok ({ typeAttr := "sphere".toList
                 children := [XmlChild.num "radius".toList r] }, cache)
  | GeomPrim.box dx dy dz =>
    Except.ok ({ typeAttr := "box".toList
                 children := [XmlChild.nums "extents".toList [dx, dy, dz]] }, cache)
  | GeomPrim.cylinder r l =>
    Except.ok ({ typeAttr := "cylinder".toList
                 children := [XmlChild.num "height".toList l,
                              XmlChild.num "radius".toList r] }, cache)
  | GeomPrim.mesh fn =>
    let rc := resolveURI env.resolvePackage cache fn
    match role with
    | GeomRole.COLLISION =>
      Except.ok ({ typeAttr := "trimesh".toList
                   renderAttr := some "false".toList
                   children := [XmlChild.txt "Data".toList rc.1] }, rc.2)
    | GeomRole.RENDER =>
      Except.ok ({ typeAttr := "sphere".toList
                   children := [XmlChild.num "radius".toList 0,
                                XmlChild.txt "Render".toList rc.1] }, rc.2)
  | GeomPrim.otherTag _ => Except.error LoadError.unsupportedGeomTag

/-! ## Joint translation (lines 123-144 and 408-463) -/

/-- Integer values of the OpenRAVE::KinBody::JointType enum.  In the
OpenRAVE headers `JointRevolute` is an alias of `JointHinge` (0x01) and
`JointPrismatic` an alias of `JointSlider` (0x02). -/
def JointHinge : Nat := 1
def JointRevolute : Nat := JointHinge
def JointSlider : Nat := 2
def JointPrismatic : Nat := JointSlider

/-- Embedding of `URDFJointTypeToRaveJointType` (lines 125-144): switch
over the integer joint-type discriminant; every case outside the four
supported ones falls into `default:` and throws. -/
def URDFJointTypeToRaveJointType (type : Nat) : Except LoadError (Nat × Bool) :=
  if type = urdfREVOLUTE then Except.ok (JointRevolute, true)
  else if type = urdfPRISMATIC then Except.ok (JointSlider, true)
  else if type = urdfFIXED then Except.ok (JointHinge, false)
  else if type = urdfCONTINUOUS then Except.ok (JointHinge, true)
  else Except.error LoadError.unsupportedJointType

/-- OpenRAVE::KinBody::JointInfo, restricted to the fields the loader
writes.  Limit fields the loader may leave untouched are `Option`
defaulting to `none` ("host default"). -/
structure JointInfo where
  name : Str
  linkname0 : Str
  linkname1 : Str
  vanchor : RaveVector
  type : Nat
  bIsActive : Bool
  vaxis : RaveVector
  lowerlimit : Option ℚ := none
  upperlimit : Option ℚ := none
  maxvel : Option ℚ := none
  maxtorque : Option ℚ := none
deriving DecidableEq

/-- One iteration of the joint loop of `URDFLoader::load` (lines
409-463): names and anchor copied, type mapped (possibly fatally), axis
rotated into the parent frame when active or replaced by (1,0,0) when
inactive, limits copied verbatim when present and synthesized as
lower=upper=0 only for inactive joints. -/
def translateJoint (j : JointNode) : Except LoadError JointInfo :=
  match URDFJointTypeToRaveJointType j.type with
  | Except.error e => Except.error e
  | Except.ok (jt, enabled) =>
    let joint_axis := if enabled then rotateVec j.origin.rotation j.axis else ⟨1, 0, 0⟩
    let ji0 : JointInfo :=
      { name := j.name
        linkname0 := j.parent_link_name
        linkname1 := j.child_link_name
        vanchor := URDFVectorToRaveVector j.origin.position
        type := jt
        bIsActive := enabled
        vaxis := URDFVectorToRaveVector joint_axis }
    match j.limits with
    | some lim =>
      Except.ok { ji0 with lowerlimit := some lim.lower
                           upperlimit := some lim.upper
                           maxvel := some lim.velocity
                           maxtorque := some lim.effort }
    | none =>
      if enabled then Except.ok ji0
      else Except.ok { ji0 with lowerlimit := some 0, upperlimit := some 0 }

/-! ## Joint ordering (lines 375-406) -/

/-- Association-list lookup modelling `jmap.find(joint_name)` on the
`std::map<std::string,int>` parsed from the side file. -/
def lookupIdx : List (Str × Nat) → Str → Option Nat
  | [], _ => none
  | (k, v) :: rest, s => if k = s then some v else lookupIdx rest s

/-- One iteration of the BOOST_FOREACH at lines 391-400: a joint whose
name has an assigned index is written into that slot of the vector
(`ordered_joints[it->second] = joint_ptr`), any other joint is appended
(`push_back`). -/
def orderStep (jmap : List (Str × Nat)) (acc : List (Option JointNode)) (j : JointNode) :
    List (Option JointNode) :=
  match lookupIdx jmap j.name with
  | some i => acc.set i (some j)
  | none => acc ++ [some j]

/-- The side-file branch of the ordering resolver: the vector is resized
to `jmap.size()` null pointers (`ordered_joints.resize(jmap.size())`)
and the joint map is folded through `orderStep`.  `joints` is the
iteration sequence of `model.joints_`. -/
def resolveOrdering (jmap : List (Str × Nat)) (joints : List JointNode) :
    List (Option JointNode) :=
  joints.foldl (orderStep jmap) (List.replicate jmap.length none)

/-- The joint loop over the ordered vector (lines 409-463).  A null
entry left behind by the ordering resolver is dereferenced immediately
(`joint_ptr->name`), which is the `nullPointerDeref` outcome. -/
def translateOrderedJoints : List (Option JointNode) → Except LoadError (List JointInfo)
  | [] => Except.ok []
  | none :: _ => Except.error LoadError.nullPointerDeref
  | some j :: rest =>
    match translateJoint j with
    | Except.error e => Except.error e
    | Except.ok ji =>
      match translateOrderedJoints rest with
      | Except.error e => Except.error e
      | Except.ok jis => Except.ok (ji :: jis)

/-! ## The whole load (URDFLoader::load) -/

/-- The parsed URDF document: `model.getLinks` order and the iteration
sequence of `model.joints_`. -/
structure URDFModel where
  links : List LinkNode
  joints : List JointNode
deriving DecidableEq

/-- The translation core of `URDFLoader::load`, from the parsed model to
the link/joint records handed to `KinBody::Init`.  `config` is the
joint-index mapping read from the side file, `none` when that file could
not be opened (missing `joints` key with an open file is `some []`).
Any error aborts before any output is produced — the kinbody is created
and registered only after both loops finish. -/
def loadModel (env : LoadEnv) (cache : PkgCache) (model : URDFModel)
    (config : Option (List (Str × Nat))) :
    Except LoadError (List LinkInfo × List JointInfo × PkgCache) :=
  match translateLinks env cache model.links with
  | Except.error e => Except.error e
  | Except.ok (lis, c1) =>
    let ordered := match config with
      | some jmap => resolveOrdering jmap model.joints
      | none => model.joints.map some
    match translateOrderedJoints ordered with
    | Except.error e => Except.error e
    | Except.ok jis => Except.ok (lis, jis, c1)

/-! ## Concrete fixtures used by witnesses and counterexamples -/

deriving instance DecidableEq for Except

/-- The identity pose: zero translation, identity quaternion. -/
def identPose : Pose := ⟨⟨0, 0, 0⟩, ⟨0, 0, 0, 1⟩⟩

/-- Collaborator stub: no package resolves, no mesh loads. -/
def env0 : LoadEnv := ⟨fun _ => [], fun _ => none⟩

/-- Collaborator stub resolving only the package `foo` to `/opt/foo`. -/
def rpFoo : Str → Str := fun p => if p = "foo".toList then "/opt/foo".toList else []

/-- A link whose collision geometry carries the out-of-enum discriminant 4. -/
def linkBadTag : LinkNode :=
  { name := "badgeom".toList
    parent_joint := none
    inertial := none
    collision := some ⟨identPose, GeomPrim.otherTag 4⟩
    visual := none }

/-- A link with a visual mesh block and no collision block. -/
def linkVisualOnly : LinkNode :=
  { name := "visonly".toList
    parent_joint := none
    inertial := none
    collision := none
    visual := some ⟨identPose, GeomPrim.mesh "file:///m.iv".toList, none⟩ }

/-- A link with only a collision sphere. -/
def linkColSphere : LinkNode :=
  { name := "two".toList
    parent_joint := none
    inertial := none
    collision := some ⟨identPose, GeomPrim.sphere 1⟩
    visual := none }

/-- The same link with an additional non-mesh (box) visual block. -/
def linkVisBox : LinkNode :=
  { linkColSphere with visual := some ⟨identPose, GeomPrim.box 1 2 3, none⟩ }

def jointLimW : JointLimits := ⟨-1, 2, 3, 4⟩

/-- A revolute joint named `a` with explicit limits. -/
def jointRevW : JointNode :=
  { name := "a".toList
    parent_link_name := "base".toList
    child_link_name := "la".toList
    type := urdfREVOLUTE
    origin := identPose
    axis := ⟨0, 0, 1⟩
    limits := some jointLimW
    mimic := none }

/-- A fixed joint named `b` with no limits block. -/
def jointFixedW : JointNode :=
  { jointRevW with name := "b".toList, child_link_name := "lb".toList,
                   type := urdfFIXED, limits := none }

/-- A revolute joint named `c` with no limits block. -/
def jointRevNoLimW : JointNode :=
  { jointRevW with name := "c".toList, limits := none }

/-- A planar joint, whose type the loader cannot translate. -/
def jointPlanarW : JointNode :=
  { jointRevW with name := "p".toList, type := urdfPLANAR }

/-- A side-file ordering spec sending `a` to slot 1 and `b` to slot 0. -/
def jmapW : List (Str × Nat) := [("a".toList, 1), ("b".toList, 0)]

/-- Placeholder joint record used to destructure `Except` values. -/
def jiDefault : JointInfo :=
  { name := []
    linkname0 := []
    linkname1 := []
    vanchor := ⟨0, 0, 0, 0⟩
    type := 0
    bIsActive := false
    vaxis := ⟨0, 0, 0, 0⟩ }

/-- Placeholder link record used to destructure `Except` values. -/
def liDefault : LinkInfo := { name := [] }

/-- A link with a mesh collision block and a cylinder visual block. -/
def linkMeshVisCyl : LinkNode :=
  { name := "mvc".toList
    parent_joint := none
    inertial := none
    collision := some ⟨identPose, GeomPrim.mesh "file:///m.iv".toList⟩
    visual := some ⟨identPose, GeomPrim.cylinder 1 2, none⟩ }

/-- A copy of the fixed joint carrying the name `a`. -/
def jointFixedA : JointNode := { jointFixedW with name := "a".toList }

/-- Expected translation of `jointRevW`. -/
def jiRevExpected : JointInfo :=
  { name := "a".toList
    linkname0 := "base".toList
    linkname1 := "la".toList
    vanchor := ⟨0, 0, 0, 0⟩
    type := JointRevolute
    bIsActive := true
    vaxis := ⟨0, 0, 1, 0⟩
    lowerlimit := some (-1)
    upperlimit := some 2
    maxvel := some 3
    maxtorque := some 4 }

/-- Expected translation of `jointFixedW`. -/
def jiFixedExpected : JointInfo :=
  { name := "b".toList
    linkname0 := "base".toList
    linkname1 := "lb".toList
    vanchor := ⟨0, 0, 0, 0⟩
    type := JointHinge
    bIsActive := false
    vaxis := ⟨1, 0, 0, 0⟩
    lowerlimit := some 0
    upperlimit := some 0 }

/-- Expected translation of `jointRevNoLimW`. -/
def jiRevNoLimExpected : JointInfo :=
  { jiRevExpected with name := "c".toList, lowerlimit := none, upperlimit := none,
                       maxvel := none, maxtorque := none }

/-! ## Helper lemmas -/

theorem strStartsWith_append (pre s : Str) : strStartsWith (pre ++ s) pre = true := by
  induction pre with
  | nil => cases s <;> simp [strStartsWith]
  | cons c cs ih => simp [strStartsWith, ih]

theorem strFindSlash_no_slash_append (P rest : Str) (hP : ∀ c ∈ P, c ≠ '/') :
    strFindSlash (P ++ '/' :: rest) = some P.length := by
  induction P with
  | nil => simp [strFindSlash]
  | cons c cs ih =>
    have hc : c ≠ '/' := hP c (List.mem_cons_self c cs)
    have ih2 := ih (fun d hd => hP d (List.mem_cons_of_mem c hd))
    simp [strFindSlash, hc, ih2]

/-- C6: URI resolution never fails fatally.  A `file://` reference
returns the remainder verbatim with the cache untouched; a
`package://P/rest` reference on a cache miss caches `ResolvePackage(P)`
even when it is empty, returning the joined path when nonempty and the
empty string when empty; any other reference returns the empty string
with the cache untouched. -/
theorem c6_resolve_uri_contract (rp : Str → Str) (cache : PkgCache) (P rest : Str)
    (hP : ∀ c ∈ P, c ≠ '/') (hmiss : alistFind cache P = none) :
    (∀ rest2, resolveURI rp cache (fileMarker ++ rest2) = (rest2, cache)) ∧
    (rp P ≠ [] →
      resolveURI rp cache (packageMarker ++ P ++ '/' :: rest) =
        (rp P ++ '/' :: rest, cache ++ [(P, rp P)])) ∧
    (rp P = [] →
      resolveURI rp cache (packageMarker ++ P ++ '/' :: rest) =
        ([], cache ++ [(P, [])])) ∧
    (∀ path, strStartsWith path fileMarker = false →
      strStartsWith path packageMarker = false →
      resolveURI rp cache path = ([], cache)) := by
  have hf : ∀ X : Str, strStartsWith (packageMarker ++ X) fileMarker = false := fun X => rfl
  have hdropP : (packageMarker ++ (P ++ '/' :: rest)).drop packageMarker.length =
      P ++ '/' :: rest := List.drop_left packageMarker _
  have hfind : strFindSlash (P ++ '/' :: rest) = some P.length :=
    strFindSlash_no_slash_append P rest hP
  refine ⟨?_, ?_, ?_, ?_⟩
  · intro rest2
    have h1 : strStartsWith (fileMarker ++ rest2) fileMarker = true :=
      strStartsWith_append _ _
    simp [resolveURI, h1, List.drop_left]
  · intro hne
    have hp : strStartsWith (packageMarker ++ (P ++ '/' :: rest)) packageMarker = true :=
      strStartsWith_append _ _
    simp only [List.append_assoc]
    simp [resolveURI, hf, hp, hdropP, hfind, hmiss, List.take_left, List.drop_left, hne,
      pathJoin]
  · intro hempty
    have hp : strStartsWith (packageMarker ++ (P ++ '/' :: rest)) packageMarker = true :=
      strStartsWith_append _ _
    simp only [List.append_assoc]
    simp [resolveURI, hf, hp, hdropP, hfind, hmiss, List.take_left, List.drop_left, hempty]
  · intro path h1 h2
    simp [resolveURI, h1, h2]

/-- C6 witness: the contract evaluated on the spec's own examples. -/
theorem c6_resolve_uri_contract_witness :
    resolveURI rpFoo [] ("file:///tmp/x.iv".toList) = ("/tmp/x.iv".toList, []) ∧
    resolveURI rpFoo [] ("package://foo/meshes/x.stl".toList) =
      ("/opt/foo/meshes/x.stl".toList, [("foo".toList, "/opt/foo".toList)]) ∧
    resolveURI (fun _ => []) [] ("package://missing/x".toList) =
      ([], [("missing".toList, [])]) ∧
    resolveURI rpFoo [] ("http://x/y".toList) = ([], []) := by
  refine ⟨?_, ?_, ?_, ?_⟩
  · exact (c6_resolve_uri_contract rpFoo [] ("foo".toList) ("x".toList)
      (by decide) (by decide)).1 ("/tmp/x.iv".toList)
  · exact (c6_resolve_uri_contract rpFoo [] ("foo".toList) ("meshes/x.stl".toList)
      (by decide) (by decide)).2.1 (by decide)
  · exact (c6_resolve_uri_contract (fun _ => []) [] ("missing".toList) ("x".toList)
      (by decide) (by decide)).2.2.1 rfl
  · exact (c6_resolve_uri_contract rpFoo [] ("foo".toList) ("x".toList)
      (by decide) (by decide)).2.2.2 ("http://x/y".toList) (by decide) (by decide)

/-- C5: for every supported collision primitive, the geometry data of
the collision entry follows the documented formula: Sphere r gives
(r,r,r), Box (x,y,z) gives the half-extents (x/2,y/2,z/2), Cylinder
(r,l) gives (r,l,0) — each with the matching output type. -/
theorem c5_collision_geometry_formulas :
    (∀ (env : LoadEnv) (cache : PkgCache) (origin : Pose) (r : ℚ),
      (collisionGeomInfo env cache ⟨origin, GeomPrim.sphere r⟩).1.vGeomData =
          some ⟨r, r, r, 0⟩ ∧
      (collisionGeomInfo env cache ⟨origin, GeomPrim.sphere r⟩).1.type =
          some GeomType.Sphere) ∧
    (∀ (env : LoadEnv) (cache : PkgCache) (origin : Pose) (dx dy dz : ℚ),
      (collisionGeomInfo env cache ⟨origin, GeomPrim.box dx dy dz⟩).1.vGeomData =
          some ⟨dx / 2, dy / 2, dz / 2, 0⟩ ∧
      (collisionGeomInfo env cache ⟨origin, GeomPrim.box dx dy dz⟩).1.type =
          some GeomType.Box) ∧
    (∀ (env : LoadEnv) (cache : PkgCache) (origin : Pose) (r l : ℚ),
      (collisionGeomInfo env cache ⟨origin, GeomPrim.cylinder r l⟩).1.vGeomData =
          some ⟨r, l, 0, 0⟩ ∧
      (collisionGeomInfo env cache ⟨origin, GeomPrim.cylinder r l⟩).1.type =
          some GeomType.Cylinder) := by
  refine ⟨fun env cache origin r => ⟨?_, rfl⟩,
          fun env cache origin dx dy dz => ⟨?_, rfl⟩,
          fun env cache origin r l => ⟨rfl, rfl⟩⟩
  · simp [collisionGeomInfo, vsmul]
  · simp [collisionGeomInfo, vsmul]
    refine ⟨by ring, by ring, by ring⟩

/-- C10: every collision geometry entry is invisible and unmodifiable,
for every primitive (the flags are written before the type switch); every
render geometry entry built from a visual block is visible and
unmodifiable. -/
theorem c10_geometry_entry_flags :
    (∀ (env : LoadEnv) (cache : PkgCache) (col : CollisionBlock),
      (collisionGeomInfo env cache col).1.bVisible = false ∧
      (collisionGeomInfo env cache col).1.bModifiable = false) ∧
    (∀ (env : LoadEnv) (cache : PkgCache) (colOrigin : Pose) (vis : VisualBlock),
      (renderGeomInfo env cache colOrigin vis).1.bVisible = true ∧
      (renderGeomInfo env cache colOrigin vis).1.bModifiable = false) := by
  constructor
  · intro env cache col
    obtain ⟨origin, geom⟩ := col
    cases geom with
    | mesh fn =>
      simp only [collisionGeomInfo]
      cases env.readTrimeshURI (resolveURI env.resolvePackage cache fn).1 <;> simp
    | _ => simp [collisionGeomInfo]
  · intro env cache colOrigin vis
    obtain ⟨origin, geom, material⟩ := vis
    cases geom <;> cases material <;> simp [renderGeomInfo]

theorem renderGeomInfo_nonmesh (env : LoadEnv) (cache : PkgCache) (colOrigin : Pose)
    (vis : VisualBlock) (hnm : ∀ fn, vis.geometry ≠ GeomPrim.mesh fn) :
    (renderGeomInfo env cache colOrigin vis).1.filenamerender = none ∧
    (renderGeomInfo env cache colOrigin vis).1.vRenderScale = none ∧
    (renderGeomInfo env cache colOrigin vis).1.type = some GeomType.Sphere ∧
    (renderGeomInfo env cache colOrigin vis).1.vGeomData = some ⟨0, 0, 0, 0⟩ ∧
    (renderGeomInfo env cache colOrigin vis).1.bVisible = true := by
  obtain ⟨vorigin, vgeom, vmat⟩ := vis
  cases vgeom with
  | mesh fn => exact absurd rfl (hnm fn)
  | _ => cases vmat <;> simp [renderGeomInfo]

/-- C1: evaluation at the failing input.  A collision geometry whose
discriminant lies outside the enum does NOT abort the load: the load
succeeds, and the link receives a geometry entry whose type-specific
fields were never written (the inline switch of `URDFLoader::load` has
no `default:` case).  Only the unused helper `makeGeomElement` throws on
such a tag. -/
theorem c1_unrecognized_collision_tag_not_fatal :
    (loadModel env0 [] ⟨[linkBadTag], []⟩ none).toOption.isSome = true ∧
    (translateLink env0 [] linkBadTag).toOption.map
        (fun p => p.1.vgeometryinfos.map GeometryInfo.type) = some [none] ∧
    makeGeomElement env0 [] (GeomPrim.otherTag 4) GeomRole.COLLISION =
      Except.error LoadError.unsupportedGeomTag := by decide

/-- C2: evaluation at the failing input.  A link carrying a visual block
but no collision block makes `URDFLoader::load` dereference the null
`collision` shared pointer at line 340; link translation does not
terminate normally and the whole load is lost with it. -/
theorem c2_visual_without_collision_crashes :
    translateLink env0 [] linkVisualOnly = Except.error LoadError.nullPointerDeref ∧
    loadModel env0 [] ⟨[linkVisualOnly], []⟩ none =
      Except.error LoadError.nullPointerDeref := by decide

/-- C3 counterexample: a link whose visual block carries a box (not a
mesh) still gains a geometry entry from that visual block — two entries
with the visual present versus one without — so the claim that the
geometry list gains nothing is false. -/
theorem c3_nonmesh_visual_gains_entry_counterexample :
    (translateLink env0 [] linkVisBox).toOption.map
        (fun p => p.1.vgeometryinfos.length) = some 2 ∧
    (translateLink env0 [] linkColSphere).toOption.map
        (fun p => p.1.vgeometryinfos.length) = some 1 := by decide

/-- C3 amended: for a link with a collision block and a visual block
whose primitive is not a mesh, translation succeeds, a warning is the
only effect of the unsupported tag on the render entry, and the entry
itself is still appended: the link ends with exactly two geometry
entries whose last is the zero-radius placeholder sphere with no render
filename and no render scale. -/
theorem c3_amended_nonmesh_visual_appends_placeholder (env : LoadEnv) (cache : PkgCache)
    (link : LinkNode) (col : CollisionBlock) (vis : VisualBlock) (li : LinkInfo)
    (c2 : PkgCache) (hcol : link.collision = some col) (hvis : link.visual = some vis)
    (hnm : ∀ fn, vis.geometry ≠ GeomPrim.mesh fn)
    (hok : translateLink env cache link = Except.ok (li, c2)) :
    li.vgeometryinfos.length = 2 ∧
    li.vgeometryinfos.getLast?.map GeometryInfo.filenamerender = some none ∧
    li.vgeometryinfos.getLast?.map GeometryInfo.vRenderScale = some none ∧
    li.vgeometryinfos.getLast?.map GeometryInfo.type = some (some GeomType.Sphere) ∧
    li.vgeometryinfos.getLast?.map GeometryInfo.vGeomData = some (some ⟨0, 0, 0, 0⟩) ∧
    li.vgeometryinfos.getLast?.map GeometryInfo.bVisible = some true := by
  have hrender := renderGeomInfo_nonmesh env (collisionGeomInfo env cache col).2
    col.origin vis hnm
  obtain ⟨nm, pj, inert, colf, visf⟩ := link
  simp only at hcol hvis
  subst hcol
  subst hvis
  cases pj <;> cases inert <;>
    simp only [translateLink, Except.ok.injEq, Prod.mk.injEq] at hok <;>
    obtain ⟨h1, h2⟩ := hok <;>
    subst h1 <;>
    simp_all [List.getLast?_concat]

/-- C9: joint limit translation.  With a limits block the four values are
copied verbatim; with no limits block a FIXED joint gets synthesized
lower=upper=0; with no limits block an active joint keeps every limit
field unset. -/
theorem c9_joint_limit_translation (j : JointNode) (ji : JointInfo)
    (hok : translateJoint j = Except.ok ji) :
    (∀ L, j.limits = some L →
      ji.lowerlimit = some L.lower ∧ ji.upperlimit = some L.upper ∧
      ji.maxvel = some L.velocity ∧ ji.maxtorque = some L.effort) ∧
    (j.limits = none → j.type = urdfFIXED →
      ji.lowerlimit = some 0 ∧ ji.upperlimit = some 0) ∧
    (j.limits = none → ji.bIsActive = true →
      ji.lowerlimit = none ∧ ji.upperlimit = none ∧
      ji.maxvel = none ∧ ji.maxtorque = none) := by
  obtain ⟨nm, pl, cl, ty, org, ax, lims, mim⟩ := j
  unfold translateJoint at hok
  cases hty : URDFJointTypeToRaveJointType ty with
  | error e => rw [hty] at hok; exact absurd hok (by simp)
  | ok p =>
    obtain ⟨jt, enabled⟩ := p
    rw [hty] at hok
    cases lims with
    | some L =>
      simp only [Except.ok.injEq] at hok
      subst hok
      refine ⟨fun L2 hL2 => ?_, fun habs => by simp at habs, fun habs => by simp at habs⟩
      simp only [Option.some.injEq] at hL2
      subst hL2
      exact ⟨rfl, rfl, rfl, rfl⟩
    | none =>
      cases enabled with
      | true =>
        simp only [if_true, Except.ok.injEq] at hok
        subst hok
        refine ⟨fun L2 hL2 => by simp at hL2, fun _ htyFix => ?_, fun _ _ => ⟨rfl, rfl, rfl, rfl⟩⟩
        have hty2 : ty = urdfFIXED := htyFix
        rw [hty2] at hty
        simp [URDFJointTypeToRaveJointType, urdfREVOLUTE, urdfPRISMATIC, urdfFIXED,
          urdfCONTINUOUS] at hty
      | false =>
        simp only [if_false, Except.ok.injEq, Bool.false_eq_true] at hok
        subst hok
        exact ⟨fun L2 hL2 => by simp at hL2, fun _ _ => ⟨rfl, rfl⟩,
               fun _ habs => by simp at habs⟩

/-- C9 witness: the limit contract evaluated on a fixed joint without
limits, a revolute joint with limits, and a revolute joint without
limits. -/
theorem c9_joint_limit_translation_witness :
    translateJoint jointFixedW = Except.ok jiFixedExpected ∧
    jiFixedExpected.lowerlimit = some 0 ∧ jiFixedExpected.upperlimit = some 0 ∧
    translateJoint jointRevW = Except.ok jiRevExpected ∧
    jiRevExpected.lowerlimit = some (-1) ∧ jiRevExpected.maxtorque = some 4 ∧
    translateJoint jointRevNoLimW = Except.ok jiRevNoLimExpected ∧
    jiRevNoLimExpected.lowerlimit = none := by
  have hokF : translateJoint jointFixedW = Except.ok jiFixedExpected := by decide
  have hokR : translateJoint jointRevW = Except.ok jiRevExpected := by
    norm_num [translateJoint, URDFJointTypeToRaveJointType, jointRevW, jointLimW,
      urdfREVOLUTE, urdfPRISMATIC, urdfFIXED, urdfCONTINUOUS, rotateVec, quatMul,
      quatInverse, URDFVectorToRaveVector, identPose, jiRevExpected]
  have hokN : translateJoint jointRevNoLimW = Except.ok jiRevNoLimExpected := by
    norm_num [translateJoint, URDFJointTypeToRaveJointType, jointRevNoLimW, jointRevW,
      urdfREVOLUTE, urdfPRISMATIC, urdfFIXED, urdfCONTINUOUS, rotateVec, quatMul,
      quatInverse, URDFVectorToRaveVector, identPose, jiRevNoLimExpected, jiRevExpected]
  have hF := c9_joint_limit_translation jointFixedW jiFixedExpected hokF
  have hR := c9_joint_limit_translation jointRevW jiRevExpected hokR
  have hN := c9_joint_limit_translation jointRevNoLimW jiRevNoLimExpected hokN
  exact ⟨hokF, (hF.2.1 rfl rfl).1, (hF.2.1 rfl rfl).2, hokR,
         (hR.1 jointLimW rfl).1, (hR.1 jointLimW rfl).2.2.2, hokN,
         (hN.2.2 rfl rfl).1⟩

/-- C3 amended witness: the amended statement evaluated on a link with a
mesh collision block and a cylinder visual block. -/
theorem c3_amended_nonmesh_visual_appends_placeholder_witness :
    ((translateLink env0 [] linkMeshVisCyl).toOption.getD (liDefault, [])).1.vgeometryinfos.length = 2 ∧
    ((translateLink env0 [] linkMeshVisCyl).toOption.getD
        (liDefault, [])).1.vgeometryinfos.getLast?.map GeometryInfo.filenamerender =
      some none := by
  have h := c3_amended_nonmesh_visual_appends_placeholder env0 [] linkMeshVisCyl
    ⟨identPose, GeomPrim.mesh "file:///m.iv".toList⟩
    ⟨identPose, GeomPrim.cylinder 1 2, none⟩
    ((translateLink env0 [] linkMeshVisCyl).toOption.getD (liDefault, [])).1
    ((translateLink env0 [] linkMeshVisCyl).toOption.getD (liDefault, [])).2
    rfl rfl (by intro fn; simp) (by decide)
  exact ⟨h.1, h.2.1⟩

/-! ## Joint ordering lemmas -/

theorem lookupIdx_mem_pair (jmap : List (Str × Nat)) (s : Str) (i : Nat)
    (h : lookupIdx jmap s = some i) : (s, i) ∈ jmap := by
  induction jmap with
  | nil => simp [lookupIdx] at h
  | cons kv rest ih =>
    obtain ⟨k, v⟩ := kv
    by_cases hk : k = s
    · subst hk
      simp only [lookupIdx, if_true, Option.some.injEq, reduceIte] at h
      subst h
      exact List.mem_cons_self _ _
    · simp only [lookupIdx, if_neg hk] at h
      exact List.mem_cons_of_mem _ (ih h)

theorem lookupIdx_mem_keys (jmap : List (Str × Nat)) (s : Str) (i : Nat)
    (h : lookupIdx jmap s = some i) : s ∈ jmap.map Prod.fst := by
  have := lookupIdx_mem_pair jmap s i h
  exact List.mem_map_of_mem Prod.fst this

theorem foldl_orderStep_length (jmap : List (Str × Nat)) :
    ∀ (joints : List JointNode) (acc : List (Option JointNode)),
      (joints.foldl (orderStep jmap) acc).length +
        (joints.filter (fun j => (lookupIdx jmap j.name).isSome)).length =
      acc.length + joints.length := by
  intro joints
  induction joints with
  | nil => intro acc; simp
  | cons j rest ih =>
    intro acc
    simp only [List.foldl_cons, List.filter_cons]
    cases h : lookupIdx jmap j.name with
    | some i =>
      have hstep : orderStep jmap acc j = acc.set i (some j) := by
        simp [orderStep, h]
      have := ih (acc.set i (some j))
      simp only [hstep, h, Option.isSome_some, if_true, List.length_cons]
      simp only [List.length_set] at this
      omega
    | none =>
      have hstep : orderStep jmap acc j = acc ++ [some j] := by
        simp [orderStep, h]
      have := ih (acc ++ [some j])
      simp only [hstep, h, Option.isSome_none, Bool.false_eq_true, if_false, List.length_cons]
      simp only [List.length_append, List.length_cons, List.length_nil] at this
      omega

theorem foldl_orderStep_getElem_stable (jmap : List (Str × Nat)) :
    ∀ (joints : List JointNode) (acc : List (Option JointNode)) (i : Nat),
      i < acc.length → (∀ j ∈ joints, lookupIdx jmap j.name ≠ some i) →
      (joints.foldl (orderStep jmap) acc)[i]? = acc[i]? := by
  intro joints
  induction joints with
  | nil => intro acc i _ _; rfl
  | cons j rest ih =>
    intro acc i hi hno
    simp only [List.foldl_cons]
    cases h : lookupIdx jmap j.name with
    | some i2 =>
      have hstep : orderStep jmap acc j = acc.set i2 (some j) := by
        simp [orderStep, h]
      have hne : i2 ≠ i := fun he =>
        hno j (List.mem_cons_self j rest) (he ▸ h)
      rw [hstep]
      rw [ih (acc.set i2 (some j)) i (by simpa using hi)
        (fun j2 hj2 => hno j2 (List.mem_cons_of_mem j hj2))]
      exact List.getElem?_set_ne hne
    | none =>
      have hstep : orderStep jmap acc j = acc ++ [some j] := by
        simp [orderStep, h]
      rw [hstep]
      rw [ih (acc ++ [some j]) i (by simp; omega)
        (fun j2 hj2 => hno j2 (List.mem_cons_of_mem j hj2))]
      exact List.getElem?_append_left hi

theorem foldl_orderStep_place (jmap : List (Str × Nat))
    (hinj : ∀ p ∈ jmap, ∀ q ∈ jmap, p.2 = q.2 → p.1 = q.1) :
    ∀ (joints : List JointNode) (acc : List (Option JointNode)) (j : JointNode) (i : Nat),
      (joints.map JointNode.name).Nodup → j ∈ joints →
      lookupIdx jmap j.name = some i → i < acc.length →
      (joints.foldl (orderStep jmap) acc)[i]? = some (some j) := by
  intro joints
  induction joints with
  | nil => intro acc j i _ hmem; exact absurd hmem (List.not_mem_nil j)
  | cons j0 rest ih =>
    intro acc j i hnd hmem hj hi
    simp only [List.map_cons, List.nodup_cons] at hnd
    obtain ⟨hj0notin, hndrest⟩ := hnd
    simp only [List.foldl_cons]
    rcases List.mem_cons.mp hmem with heq | hmemrest
    · subst heq
      have hstep : orderStep jmap acc j = acc.set i (some j) := by
        simp [orderStep, hj]
      rw [hstep]
      have hno : ∀ j2 ∈ rest, lookupIdx jmap j2.name ≠ some i := by
        intro j2 hj2 hcon
        have h1 := lookupIdx_mem_pair jmap j.name i hj
        have h2 := lookupIdx_mem_pair jmap j2.name i hcon
        have : j2.name = j.name := hinj (j2.name, i) h2 (j.name, i) h1 rfl
        exact hj0notin (this ▸ List.mem_map_of_mem JointNode.name hj2)
      rw [foldl_orderStep_getElem_stable jmap rest (acc.set i (some j)) i
        (by simpa using hi) hno]
      exact List.getElem?_set_eq_of_lt (some j) (by simpa using hi)
    · cases h0 : lookupIdx jmap j0.name with
      | some i0 =>
        have hstep : orderStep jmap acc j0 = acc.set i0 (some j0) := by
          simp [orderStep, h0]
        rw [hstep]
        exact ih (acc.set i0 (some j0)) j i hndrest hmemrest hj (by simpa using hi)
      | none =>
        have hstep : orderStep jmap acc j0 = acc ++ [some j0] := by
          simp [orderStep, h0]
        rw [hstep]
        exact ih (acc ++ [some j0]) j i hndrest hmemrest hj (by simp; omega)

/-- C7: with a side-file spec that assigns every joint name a unique
in-range index over exactly N = |joints| slots, the resolved sequence
has length N, places every joint at exactly its assigned index, and is
the same for every iteration order of the source joint map. -/
theorem c7_full_ordering_inverse_permutation (jmap : List (Str × Nat))
    (joints : List JointNode)
    (hnames : (joints.map JointNode.name).Nodup)
    (hcover : ∀ j ∈ joints, (lookupIdx jmap j.name).isSome)
    (hrange : ∀ p ∈ jmap, p.2 < joints.length)
    (hlen : jmap.length = joints.length)
    (hinj : ∀ p ∈ jmap, ∀ q ∈ jmap, p.2 = q.2 → p.1 = q.1) :
    (resolveOrdering jmap joints).length = joints.length ∧
    (∀ j ∈ joints, ∀ i, lookupIdx jmap j.name = some i →
      (resolveOrdering jmap joints)[i]? = some (some j)) ∧
    (∀ joints2 : List JointNode, joints2.Perm joints →
      resolveOrdering jmap joints2 = resolveOrdering jmap joints) := by
  have hfilter : ∀ js : List JointNode, (∀ j ∈ js, (lookupIdx jmap j.name).isSome) →
      js.filter (fun j => (lookupIdx jmap j.name).isSome) = js := by
    intro js hjs
    exact List.filter_eq_self.mpr hjs
  have hlenR : ∀ js : List JointNode, (∀ j ∈ js, (lookupIdx jmap j.name).isSome) →
      (resolveOrdering jmap js).length = jmap.length := by
    intro js hjs
    have := foldl_orderStep_length jmap js (List.replicate jmap.length none)
    rw [hfilter js hjs] at this
    simp only [List.length_replicate] at this
    simp only [resolveOrdering]
    omega
  have hplace : ∀ (js : List JointNode), (js.map JointNode.name).Nodup →
      ∀ j ∈ js, ∀ i, lookupIdx jmap j.name = some i →
      (resolveOrdering jmap js)[i]? = some (some j) := by
    intro js hnd j hj i hi
    have hip : (j.name, i) ∈ jmap := lookupIdx_mem_pair jmap j.name i hi
    have hilt : i < jmap.length := hlen ▸ hrange (j.name, i) hip
    exact foldl_orderStep_place jmap hinj js (List.replicate jmap.length none) j i
      hnd hj hi (by simpa using hilt)
  refine ⟨hlen ▸ hlenR joints hcover, hplace joints hnames, ?_⟩
  intro joints2 hperm
  have hnames2 : (joints2.map JointNode.name).Nodup :=
    ((hperm.map JointNode.name).nodup_iff).mpr hnames
  have hcover2 : ∀ j ∈ joints2, (lookupIdx jmap j.name).isSome :=
    fun j hj => hcover j (hperm.mem_iff.mp hj)
  apply List.ext_getElem?
  intro i
  by_cases hik : i < jmap.length
  · by_cases hex : ∃ j ∈ joints, lookupIdx jmap j.name = some i
    · obtain ⟨j, hjmem, hji⟩ := hex
      rw [hplace joints hnames j hjmem i hji,
        hplace joints2 hnames2 j (hperm.mem_iff.mpr hjmem) i hji]
    · push_neg at hex
      have hex2 : ∀ j ∈ joints2, lookupIdx jmap j.name ≠ some i :=
        fun j hj => hex j (hperm.mem_iff.mp hj)
      simp only [resolveOrdering]
      rw [foldl_orderStep_getElem_stable jmap joints (List.replicate jmap.length none) i
          (by simpa using hik) hex,
        foldl_orderStep_getElem_stable jmap joints2 (List.replicate jmap.length none) i
          (by simpa using hik) hex2]
  · rw [List.getElem?_eq_none (by rw [hlenR joints2 hcover2]; omega),
      List.getElem?_eq_none (by rw [hlenR joints hcover]; omega)]

/-- C7 witness: the spec sending `a` to slot 1 and `b` to slot 0 resolves
two joints into exactly the inverse arrangement. -/
theorem c7_full_ordering_inverse_permutation_witness :
    resolveOrdering jmapW [jointFixedA, jointFixedW] =
      [some jointFixedW, some jointFixedA] ∧
    (resolveOrdering jmapW [jointFixedA, jointFixedW])[1]? = some (some jointFixedA) := by
  have h := c7_full_ordering_inverse_permutation jmapW [jointFixedA, jointFixedW]
    (by decide) (by decide) (by decide) (by decide) (by decide)
  refine ⟨?_, h.2.1 jointFixedA (by decide) 1 (by decide)⟩
  have h0 := h.2.1 jointFixedW (by decide) 0 (by decide)
  have h1 := h.2.1 jointFixedA (by decide) 1 (by decide)
  have hl := h.1
  apply List.ext_getElem?
  intro i
  match i with
  | 0 => simpa using h0
  | 1 => simpa using h1
  | n + 2 =>
    rw [List.getElem?_eq_none (by rw [hl]; simp),
      List.getElem?_eq_none (by simp)]

theorem translateOrderedJoints_ok (oj : List (Option JointNode)) (l : List JointInfo)
    (h : translateOrderedJoints oj = Except.ok l) :
    (∀ x ∈ oj, x ≠ none) ∧ l.length = oj.length ∧
    (∀ j : JointNode, some j ∈ oj → ∃ ji, translateJoint j = Except.ok ji) := by
  induction oj generalizing l with
  | nil =>
    simp only [translateOrderedJoints, Except.ok.injEq] at h
    subst h
    exact ⟨by simp, rfl, by simp⟩
  | cons x rest ih =>
    cases x with
    | none => exact absurd h (by simp [translateOrderedJoints])
    | some j =>
      simp only [translateOrderedJoints] at h
      cases hj : translateJoint j with
      | error e => rw [hj] at h; exact absurd h (by simp)
      | ok ji =>
        rw [hj] at h
        cases hrest : translateOrderedJoints rest with
        | error e => rw [hrest] at h; exact absurd h (by simp)
        | ok jis =>
          rw [hrest] at h
          simp only [Except.ok.injEq] at h
          subst h
          obtain ⟨h1, h2, h3⟩ := ih jis hrest
          refine ⟨?_, by simp [h2], ?_⟩
          · intro y hy
            rcases List.mem_cons.mp hy with rfl | hy2
            · simp
            · exact h1 y hy2
          · intro j2 hj2
            rcases List.mem_cons.mp hj2 with he | hy2
            · obtain rfl : j2 = j := Option.some.inj he
              exact ⟨ji, hj⟩
            · exact h3 j2 hy2

theorem filterMap_id_length_of_no_none (l : List (Option JointNode))
    (h : ∀ x ∈ l, x ≠ none) : (l.filterMap id).length = l.length := by
  induction l with
  | nil => rfl
  | cons x rest ih =>
    cases x with
    | none => exact absurd rfl (h none (List.mem_cons_self _ _))
    | some a =>
      simp only [List.filterMap_cons, id_eq, List.length_cons]
      rw [ih (fun y hy => h y (List.mem_cons_of_mem _ hy))]

theorem replicate_none_filterMap (n : Nat) :
    (List.replicate n (none : Option JointNode)).filterMap id = [] := by
  induction n with
  | zero => rfl
  | succ n ih => simp [List.replicate_succ, List.filterMap_cons, ih]

theorem filterMap_id_coe_le_cons (x : Option JointNode) (rest : List (Option JointNode)) :
    (↑(rest.filterMap id) : Multiset JointNode) ≤ ↑((x :: rest).filterMap id) := by
  cases x with
  | none => simp [List.filterMap_cons]
  | some a =>
    simp only [List.filterMap_cons, id_eq]
    rw [← Multiset.cons_coe]
    exact Multiset.le_cons_self _ _

theorem set_filterMap_le (acc : List (Option JointNode)) :
    ∀ (i : Nat) (j : JointNode),
      (((acc.set i (some j)).filterMap id : List JointNode) : Multiset JointNode) ≤
        ↑(acc.filterMap id) + {j} := by
  induction acc with
  | nil =>
    intro i j
    simp [List.set]
  | cons x rest ih =>
    intro i j
    cases i with
    | zero =>
      rw [List.set_cons_zero]
      simp only [List.filterMap_cons, id_eq]
      rw [← Multiset.cons_coe]
      calc (j ::ₘ (↑(rest.filterMap id) : Multiset JointNode))
          = ↑(rest.filterMap id) + {j} := by
            rw [add_comm, Multiset.singleton_add]
        _ ≤ ↑((x :: rest).filterMap id) + {j} :=
            add_le_add_right (filterMap_id_coe_le_cons x rest) {j}
    | succ n =>
      rw [List.set_cons_succ]
      cases x with
      | none =>
        simp only [List.filterMap_cons, id_eq]
        exact ih n j
      | some a =>
        simp only [List.filterMap_cons, id_eq]
        rw [← Multiset.cons_coe, ← Multiset.cons_coe]
        calc (a ::ₘ (↑((rest.set n (some j)).filterMap id) : Multiset JointNode))
            ≤ a ::ₘ (↑(rest.filterMap id) + {j}) := Multiset.cons_le_cons a (ih n j)
          _ = (a ::ₘ ↑(rest.filterMap id)) + {j} := by rw [Multiset.cons_add]

theorem foldl_orderStep_filterMap_le (jmap : List (Str × Nat)) :
    ∀ (joints : List JointNode) (acc : List (Option JointNode)),
      (((joints.foldl (orderStep jmap) acc).filterMap id : List JointNode) :
          Multiset JointNode) ≤ ↑(acc.filterMap id) + ↑joints := by
  intro joints
  induction joints with
  | nil => intro acc; simp
  | cons j rest ih =>
    intro acc
    simp only [List.foldl_cons]
    have h2 : (((orderStep jmap acc j).filterMap id : List JointNode) : Multiset JointNode) ≤
        ↑(acc.filterMap id) + {j} := by
      unfold orderStep
      cases h : lookupIdx jmap j.name with
      | some i => exact set_filterMap_le acc i j
      | none =>
        rw [List.filterMap_append]
        simp only [List.filterMap_cons, id_eq, List.filterMap_nil]
        exact le_of_eq (by rw [← Multiset.coe_singleton, ← Multiset.coe_add])
    calc (((rest.foldl (orderStep jmap) (orderStep jmap acc j)).filterMap id :
            List JointNode) : Multiset JointNode)
        ≤ ↑((orderStep jmap acc j).filterMap id) + ↑rest := ih (orderStep jmap acc j)
      _ ≤ (↑(acc.filterMap id) + {j}) + ↑rest := add_le_add_right h2 _
      _ = ↑(acc.filterMap id) + ↑(j :: rest) := by
          rw [add_assoc, Multiset.singleton_add, Multiset.cons_coe]

theorem matched_count_le (jmap : List (Str × Nat)) (joints : List JointNode)
    (hnames : (joints.map JointNode.name).Nodup) :
    (joints.filter (fun j => (lookupIdx jmap j.name).isSome)).length ≤ jmap.length := by
  have hsl : (joints.filter (fun j => (lookupIdx jmap j.name).isSome)).Sublist joints :=
    List.filter_sublist joints
  have hnd : ((joints.filter (fun j => (lookupIdx jmap j.name).isSome)).map
      JointNode.name).Nodup := (hsl.map JointNode.name).nodup hnames
  have hsubset : ∀ s ∈ (joints.filter (fun j => (lookupIdx jmap j.name).isSome)).map
      JointNode.name, s ∈ jmap.map Prod.fst := by
    intro s hs
    obtain ⟨j, hjmem, rfl⟩ := List.mem_map.mp hs
    have hmem2 := List.of_mem_filter hjmem
    obtain ⟨i, hi⟩ := Option.isSome_iff_exists.mp hmem2
    exact lookupIdx_mem_keys jmap j.name i hi
  calc (joints.filter (fun j => (lookupIdx jmap j.name).isSome)).length
      = ((joints.filter (fun j => (lookupIdx jmap j.name).isSome)).map
          JointNode.name).length := (List.length_map _ _).symm
    _ = ((joints.filter (fun j => (lookupIdx jmap j.name).isSome)).map
          JointNode.name).toFinset.card := (List.toFinset_card_of_nodup hnd).symm
    _ ≤ (jmap.map Prod.fst).toFinset.card := Finset.card_le_card (fun s hs => by
          simp only [List.mem_toFinset] at hs ⊢
          exact hsubset s hs)
    _ ≤ (jmap.map Prod.fst).length := List.toFinset_card_le _
    _ = jmap.length := List.length_map jmap Prod.fst

theorem resolveOrdering_ok_perm (jmap : List (Str × Nat)) (joints : List JointNode)
    (jis : List JointInfo) (hnames : (joints.map JointNode.name).Nodup)
    (hok : translateOrderedJoints (resolveOrdering jmap joints) = Except.ok jis) :
    jis.length = joints.length ∧
      ((resolveOrdering jmap joints).filterMap id).Perm joints := by
  obtain ⟨hnone, hlenjis, _⟩ := translateOrderedJoints_ok _ _ hok
  have hlen1 := foldl_orderStep_length jmap joints (List.replicate jmap.length none)
  simp only [List.length_replicate] at hlen1
  have hfm := filterMap_id_length_of_no_none _ hnone
  have hsub : (((resolveOrdering jmap joints).filterMap id : List JointNode) :
      Multiset JointNode) ≤ ↑joints := by
    have := foldl_orderStep_filterMap_le jmap joints (List.replicate jmap.length none)
    rw [replicate_none_filterMap] at this
    simpa [resolveOrdering] using this
  have hcard : ((resolveOrdering jmap joints).filterMap id).length ≤ joints.length := by
    have := Multiset.card_le_card hsub
    simpa using this
  have hcm := matched_count_le jmap joints hnames
  have hRlen : (resolveOrdering jmap joints).length = joints.length := by
    simp only [resolveOrdering] at hfm hcard ⊢
    omega
  refine ⟨by omega, ?_⟩
  have hcard2 : Multiset.card (↑joints : Multiset JointNode) ≤
      Multiset.card (((resolveOrdering jmap joints).filterMap id : List JointNode) :
        Multiset JointNode) := by
    simp only [Multiset.coe_card]
    omega
  exact Multiset.coe_eq_coe.mp (Multiset.eq_of_le_of_card_le hsub hcard2)

theorem translateLinks_ok_length (env : LoadEnv) :
    ∀ (cache : PkgCache) (links : List LinkNode) (lis : List LinkInfo) (c : PkgCache),
      translateLinks env cache links = Except.ok (lis, c) → lis.length = links.length := by
  intro cache links
  induction links generalizing cache with
  | nil =>
    intro lis c h
    simp only [translateLinks, Except.ok.injEq, Prod.mk.injEq] at h
    rw [← h.1]
    rfl
  | cons l rest ih =>
    intro lis c h
    simp only [translateLinks] at h
    cases h1 : translateLink env cache l with
    | error e => rw [h1] at h; exact absurd h (by simp)
    | ok p =>
      rw [h1] at h
      obtain ⟨li, c1⟩ := p
      dsimp only at h
      cases h2 : translateLinks env c1 rest with
      | error e => rw [h2] at h; exact absurd h (by simp)
      | ok q =>
        rw [h2] at h
        obtain ⟨lis2, c2⟩ := q
        simp only [Except.ok.injEq, Prod.mk.injEq] at h
        rw [← h.1]
        simp [ih c1 lis2 c2 h2]

/-- C8: round-trip counts.  Whenever the load's two loops both succeed,
the number of output link records equals the number of input links, the
number of output joint records equals the number of input joints, and
the resolved joint sequence is a permutation of the input joint set (no
joint dropped or duplicated). -/
theorem c8_round_trip_counts (env : LoadEnv) (cache : PkgCache) (links : List LinkNode)
    (jmap : List (Str × Nat)) (joints : List JointNode) (lis : List LinkInfo)
    (c : PkgCache) (jis : List JointInfo)
    (hnames : (joints.map JointNode.name).Nodup)
    (hlinks : translateLinks env cache links = Except.ok (lis, c))
    (hjoints : translateOrderedJoints (resolveOrdering jmap joints) = Except.ok jis) :
    lis.length = links.length ∧ jis.length = joints.length ∧
    ((resolveOrdering jmap joints).filterMap id).Perm joints := by
  have hp := resolveOrdering_ok_perm jmap joints jis hnames hjoints
  exact ⟨translateLinks_ok_length env cache links lis c hlinks, hp.1, hp.2⟩

/-- C8 witness: one link and two fixed joints routed through the side
file spec; counts are preserved and the resolved sequence is a
permutation of the input joints. -/
theorem c8_round_trip_counts_witness :
    ((translateLinks env0 [] [linkBadTag]).toOption.getD ([], [])).1.length = 1 ∧
    ((translateOrderedJoints (resolveOrdering jmapW [jointFixedA, jointFixedW])).toOption.getD
        []).length = 2 ∧
    ((resolveOrdering jmapW [jointFixedA, jointFixedW]).filterMap id).Perm
      [jointFixedA, jointFixedW] := by
  have h := c8_round_trip_counts env0 [] [linkBadTag] jmapW [jointFixedA, jointFixedW]
    ((translateLinks env0 [] [linkBadTag]).toOption.getD ([], [])).1
    ((translateLinks env0 [] [linkBadTag]).toOption.getD ([], [])).2
    ((translateOrderedJoints (resolveOrdering jmapW [jointFixedA, jointFixedW])).toOption.getD [])
    (by decide) (by decide) (by decide)
  exact ⟨h.1, h.2.1, h.2.2⟩

theorem translateJoint_type_error (j : JointNode) (e : LoadError)
    (h : URDFJointTypeToRaveJointType j.type = Except.error e) :
    translateJoint j = Except.error e := by
  unfold translateJoint
  rw [h]

/-- C4: the joint type mapping.  The four supported URDF type tags map to
the documented (OpenRAVE type, active flag) pairs — in OpenRAVE
`JointRevolute` aliases `JointHinge` and `JointSlider` aliases
`JointPrismatic` — any other tag throws, and a model containing a joint
with such a tag can never load successfully. -/
theorem c4_joint_type_mapping :
    URDFJointTypeToRaveJointType urdfREVOLUTE = Except.ok (JointRevolute, true) ∧
    URDFJointTypeToRaveJointType urdfPRISMATIC = Except.ok (JointSlider, true) ∧
    URDFJointTypeToRaveJointType urdfFIXED = Except.ok (JointHinge, false) ∧
    URDFJointTypeToRaveJointType urdfCONTINUOUS = Except.ok (JointHinge, true) ∧
    (∀ t : Nat, t ≠ urdfREVOLUTE → t ≠ urdfPRISMATIC → t ≠ urdfFIXED →
      t ≠ urdfCONTINUOUS →
      URDFJointTypeToRaveJointType t = Except.error LoadError.unsupportedJointType) ∧
    (∀ (env : LoadEnv) (cache : PkgCache) (model : URDFModel)
        (config : Option (List (Str × Nat))) (j : JointNode),
      (model.joints.map JointNode.name).Nodup → j ∈ model.joints →
      URDFJointTypeToRaveJointType j.type = Except.error LoadError.unsupportedJointType →
      ∀ out, loadModel env cache model config ≠ Except.ok out) := by
  refine ⟨rfl, rfl, rfl, rfl, ?_, ?_⟩
  · intro t h1 h2 h3 h4
    simp [URDFJointTypeToRaveJointType, h1, h2, h3, h4]
  · intro env cache model config j hnames hmem htype out hok
    unfold loadModel at hok
    cases hl : translateLinks env cache model.links with
    | error e => rw [hl] at hok; exact absurd hok (by simp)
    | ok p =>
      rw [hl] at hok
      obtain ⟨lis, c1⟩ := p
      dsimp only at hok
      have hbad : ∀ oj : List (Option JointNode), some j ∈ oj →
          ∀ jis, translateOrderedJoints oj ≠ Except.ok jis := by
        intro oj hmemoj jis hjok
        obtain ⟨-, -, h3⟩ := translateOrderedJoints_ok oj jis hjok
        obtain ⟨ji, hji⟩ := h3 j hmemoj
        rw [translateJoint_type_error j LoadError.unsupportedJointType htype] at hji
        exact absurd hji (by simp)
      cases config with
      | none =>
        dsimp only at hok
        cases hj : translateOrderedJoints (model.joints.map some) with
        | error e => rw [hj] at hok; exact absurd hok (by simp)
        | ok jis =>
          exact hbad (model.joints.map some) (List.mem_map_of_mem some hmem) jis hj
      | some jmap =>
        dsimp only at hok
        cases hj : translateOrderedJoints (resolveOrdering jmap model.joints) with
        | error e => rw [hj] at hok; exact absurd hok (by simp)
        | ok jis =>
          have hperm := (resolveOrdering_ok_perm jmap model.joints jis hnames hj).2
          have hjmem2 : j ∈ (resolveOrdering jmap model.joints).filterMap id :=
            hperm.mem_iff.mpr hmem
          obtain ⟨o, homem, hoeq⟩ := List.mem_filterMap.mp hjmem2
          rw [show (id o : Option JointNode) = o from rfl] at hoeq
          subst hoeq
          exact hbad (resolveOrdering jmap model.joints) homem jis hj

/-- C4 witness: the PLANAR tag throws and a one-joint planar model never
loads. -/
theorem c4_joint_type_mapping_witness :
    URDFJointTypeToRaveJointType urdfPLANAR =
      Except.error LoadError.unsupportedJointType ∧
    loadModel env0 [] ⟨[], [jointPlanarW]⟩ none ≠ Except.ok ([], [], []) := by
  have h := c4_joint_type_mapping
  exact ⟨h.2.2.2.2.1 urdfPLANAR (by decide) (by decide) (by decide) (by decide),
         h.2.2.2.2.2 env0 [] ⟨[], [jointPlanarW]⟩ none jointPlanarW (by decide)
           (by decide) (by decide) ([], [], [])⟩
